import Mathlib

/-!
Verification development for the Python execution tool
(`src/Python_tool/PythonExecutor_secure.py`).

The file shallowly embeds the module: Python values become the inductive
`PyVal`; the instance's `global_state` dict becomes an insertion-ordered
association list with Python `dict` update semantics; the two helpers
`is_json_serializable` / `make_json_serializable` and the methods
`_is_code_safe`, `_execute_code`, `execute`, `reset_state` of `PythonExecutor`
become Lean functions of the same shape.  The behaviour of CPython's
`compile` / `exec` / `eval` on a given snippet cannot itself be embedded; it is
abstracted as a `PySem` parameter (an outcome per snippet and seeded
namespace), and concrete `PySem` values model the snippets used by the
concrete scenarios.  Likewise the wall-clock behaviour of the worker thread is
abstracted as a `WorkerBehavior` (how long the snippet would run, what output
it had produced when the interrupt lands, and what
`PyThreadState_SetAsyncExc` reports).
-/

namespace PyExec

set_option maxRecDepth 8000

/-- Python runtime values, as far as the module observes them.  Floats are
modelled as rationals (no claim exercises float rounding).  `vBytes` carries
the decoded text of the bytes (the `decode` of a valid-UTF-8 payload; the
undecodable case is an open question of the design and is out of scope).
`vNdarray` is a `numpy.ndarray` whose `tolist()` is the carried list;
`vNpGeneric` is a numpy scalar whose `item()` is the carried value.
`vOther` is any other object, carrying its `str()` rendering. -/
inductive PyVal where
  | vNone
  | vBool (b : Bool)
  | vInt (n : Int)
  | vFloat (q : Rat)
  | vStr (s : String)
  | vBytes (decoded : String)
  | vComplex (re im : Rat)
  | vNdarray (l : List PyVal)
  | vNpGeneric (scalar : PyVal)
  | vSet (l : List PyVal)
  | vList (l : List PyVal)
  | vTuple (l : List PyVal)
  | vDict (l : List (PyVal × PyVal))
  | vOther (rendering : String)

/-- Keys accepted by `json.dumps` for mapping types (str, int, float, bool,
None; anything else raises `TypeError` with the default settings). -/
def jsKey : PyVal → Bool
  | .vStr _ => true
  | .vInt _ => true
  | .vFloat _ => true
  | .vBool _ => true
  | .vNone => true
  | _ => false

mutual

/-- Mirrors `is_json_serializable` (PythonExecutor_secure.py): whether
`json.dumps(data)` succeeds, i.e. the value is built from primitives,
lists/tuples and dicts with primitive keys. -/
def is_json_serializable : PyVal → Bool
  | .vNone => true
  | .vBool _ => true
  | .vInt _ => true
  | .vFloat _ => true
  | .vStr _ => true
  | .vList l => jsList l
  | .vTuple l => jsList l
  | .vDict ps => jsPairs ps
  | .vBytes _ => false
  | .vComplex _ _ => false
  | .vNdarray _ => false
  | .vNpGeneric _ => false
  | .vSet _ => false
  | .vOther _ => false

def jsList : List PyVal → Bool
  | [] => true
  | v :: vs => is_json_serializable v && jsList vs

def jsPairs : List (PyVal × PyVal) → Bool
  | [] => true
  | (k, v) :: ps => jsKey k && is_json_serializable v && jsPairs ps

end

mutual

/-- Mirrors `make_json_serializable` (PythonExecutor_secure.py), branch for
branch and in the source's `isinstance` order: ndarray → `tolist()`;
set → `list(data)` (elements NOT recursively converted, as in the source);
bytes/bytearray → `decode` to text; complex → `[real, imag]`; numpy scalar →
`item()`; dict → recursively converted keys and values; list/tuple →
recursively converted elements; primitives pass through; anything else →
`str(data)`. -/
def make_json_serializable : PyVal → PyVal
  | .vNdarray l => .vList l
  | .vSet l => .vList l
  | .vBytes s => .vStr s
  | .vComplex re im => .vList [.vFloat re, .vFloat im]
  | .vNpGeneric v => v
  | .vDict ps => .vDict (mjsPairs ps)
  | .vList l => .vList (mjsList l)
  | .vTuple l => .vList (mjsList l)
  | .vInt n => .vInt n
  | .vFloat q => .vFloat q
  | .vStr s => .vStr s
  | .vBool b => .vBool b
  | .vNone => .vNone
  | .vOther s => .vStr s

def mjsList : List PyVal → List PyVal
  | [] => []
  | v :: vs => make_json_serializable v :: mjsList vs

def mjsPairs : List (PyVal × PyVal) → List (PyVal × PyVal)
  | [] => []
  | (k, v) :: ps => (make_json_serializable k, make_json_serializable v) :: mjsPairs ps

end

/-! ### The security screener (`_is_code_safe`) -/

/-- `\w` of Python's `re` (ASCII fragment): letters, digits, underscore. -/
def isPyWordChar (c : Char) : Bool := c.isAlphanum || c == '_'

/-- `\s` of Python's `re` (ASCII fragment). -/
def isPySpace (c : Char) : Bool :=
  c == ' ' || c == '\t' || c == '\n' || c == '\r' || c == '\x0b' || c == '\x0c'

/-- Consume an exact literal from the front of a character list. -/
def stripLit : List Char → List Char → Option (List Char)
  | [], cs => some cs
  | _ :: _, [] => none
  | p :: ps, c :: cs => if c == p then stripLit ps cs else none

/-- Match the regex fragment `kw\s+mod\b` at the head of `cs` (the `\b`
before `kw` is handled by the caller).  The blocked module names all start
with a non-space character, so the greedy `\s+` needs no backtracking. -/
def stmtTail (kw modname : List Char) (cs : List Char) : Bool :=
  match stripLit kw cs with
  | none => false
  | some rest =>
    match rest with
    | [] => false
    | c :: _ =>
      if isPySpace c then
        match stripLit modname (rest.dropWhile isPySpace) with
        | none => false
        | some [] => true
        | some (d :: _) => !isPyWordChar d
      else false

/-- Scan every position of the text for `\bkw\s+mod\b`, tracking whether the
previous character is a word character (so `\b` holds exactly when it is
not; at the start of the text it holds). -/
def scanStmt (kw modname : List Char) : Bool → List Char → Bool
  | _, [] => false
  | prevWord, c :: cs =>
    (!prevWord && stmtTail kw modname (c :: cs)) || scanStmt kw modname (isPyWordChar c) cs

/-- Mirrors `re.search(rf"\bimport\s+{module}\b|\bfrom\s+{module}\b", code)`
in `_is_code_safe`: true when either alternative matches somewhere. -/
def modStmtHit (modname : String) (code : String) : Bool :=
  scanStmt "import".data modname.data false code.data ||
  scanStmt "from".data modname.data false code.data

/-- Is `pat` a leading piece of the character list. -/
def startsWithL : List Char → List Char → Bool
  | [], _ => true
  | _ :: _, [] => false
  | p :: ps, c :: cs => p == c && startsWithL ps cs

/-- Does `pat` occur contiguously somewhere in the character list. -/
def containsSub (pat : List Char) : List Char → Bool
  | [] => pat.isEmpty
  | c :: cs => startsWithL pat (c :: cs) || containsSub pat cs

/-- Python's `sub in s` on strings. -/
def strContains (s sub : String) : Bool := containsSub sub.data s.data

/-- Python's `s.startswith(p)`. -/
def strStartsWith (s p : String) : Bool := startsWithL p.data s.data

/-- `self.blocked_imports` of `PythonExecutor.__init__`. -/
def blocked_imports : List String := ["os", "sys", "subprocess", "shutil"]

/-- `self.blocked_keywords` of `PythonExecutor.__init__`. -/
def blocked_keywords : List String :=
  ["exec", "eval", "open", "os.system", "subprocess", "ctypes", "importlib", "input"]

/-- Mirrors `_is_code_safe`: no blocked-import statement pattern matches and
no blocked keyword occurs as a substring. -/
def is_code_safe (code : String) : Bool :=
  blocked_imports.all (fun m => !modStmtHit m code) &&
  blocked_keywords.all (fun k => !strContains code k)

/-! ### The session state (`self.global_state`, a Python dict) -/

/-- First binding of a key in an insertion-ordered association list (Python
dict keys are unique, which `dictSet` maintains, so first = only). -/
def dictLookup : List (String × PyVal) → String → Option PyVal
  | [], _ => none
  | (k, v) :: rest, key => if k = key then some v else dictLookup rest key

/-- Overwrite every binding of `key` in place, keeping its position. -/
def dictReplace (key : String) (v : PyVal) : List (String × PyVal) → List (String × PyVal)
  | [] => []
  | (k1, v1) :: rest =>
    if k1 = key then (key, v) :: dictReplace key v rest
    else (k1, v1) :: dictReplace key v rest

/-- Python `d[k] = v` on an insertion-ordered dict: overwrite in place when
the key is present, append otherwise. -/
def dictSet (d : List (String × PyVal)) (key : String) (v : PyVal) :
    List (String × PyVal) :=
  match dictLookup d key with
  | some _ => dictReplace key v d
  | none => d ++ [(key, v)]

/-- Python `d.update(u)` (also the `{a, **b}` dict-literal spread): each
binding of `u` is written into `d` in order, later bindings winning. -/
def dictUpdate (d u : List (String × PyVal)) : List (String × PyVal) :=
  u.foldl (fun acc p => dictSet acc p.1 p.2) d

/-- Last binding of a key in an association list (the one that wins when the
list is written into a dict left to right). -/
def lastLookup : List (String × PyVal) → String → Option PyVal
  | [], _ => none
  | (k, v) :: rest, key =>
    match lastLookup rest key with
    | some w => some w
    | none => if k = key then some v else none

/-! ### The execution engine (`_execute_code`) -/

/-- The result dict built by `_execute_code` / returned by `execute`:
all four keys are always present. -/
structure ExecResult where
  success : Bool
  output : String
  error : Option String
  result : Option PyVal

/-- The initial `result = {'success': False, 'output': '', 'error': None,
'result': None}` of `_execute_code`. -/
def emptyResult : ExecResult :=
  { success := false, output := "", error := none, result := none }

/-- The spec's error taxonomy, read off the error strings the module
produces. -/
inductive ErrKind where
  | securityRejected
  | syntaxInvalid
  | runtimeFailure
  | timeoutExpired
deriving DecidableEq

/-- Classify a result's error string into the spec's taxonomy:
the security path produces exactly `SecurityError: Unsafe code detected`;
a compile failure produces `SyntaxError: ...`; both timeout messages of the
module start with `Execution timed out`; any other exception report
(`TypeName: message` plus traceback) is a runtime failure. -/
def errKind (r : ExecResult) : Option ErrKind :=
  match r.error with
  | none => none
  | some e =>
    if e = "SecurityError: Unsafe code detected" then some .securityRejected
    else if strStartsWith e "SyntaxError" then some .syntaxInvalid
    else if strStartsWith e "Execution timed out" then some .timeoutExpired
    else some .runtimeFailure

/-- Outcome of `compile(code, '<string>', 'exec')` followed by
`exec(compiled_code, exec_globals)` on a given snippet and seeded namespace:
a compile failure (`SyntaxError` with message and traceback), a runtime
exception (type name, message, traceback, plus the output captured before the
failure), a `KeyboardInterrupt` (delivered by the supervisor's async
interrupt, or raised by the snippet itself — the handler cannot tell them
apart), or normal completion with the final namespace and the captured
output. -/
inductive RunOutcome where
  | syntaxError (msg tb : String)
  | exn (name msg tb outp : String)
  | interrupted (outp : String)
  | ok (ns : List (String × PyVal)) (outp : String)

/-- Abstract semantics of CPython on the snippets of interest: `run` is the
outcome of compiling and executing `code` against a seeded namespace, and
`evalExpr` is the outcome of `eval(compile(seg, '<string>', 'eval'), ns)` on
the last statement-like segment (`none` when the compile or the eval
raises — `_execute_code` swallows that with a bare `except`). -/
structure PySem where
  run : String → List (String × PyVal) → RunOutcome
  evalExpr : String → List (String × PyVal) → Option PyVal

/-- The value bound to `__builtins__` when the namespace is seeded. -/
def builtinsVal : PyVal := .vOther "builtins"

/-- `exec_globals = {'__builtins__': __builtins__, **self.global_state}`. -/
def seedGlobals (state : List (String × PyVal)) : List (String × PyVal) :=
  dictUpdate [("__builtins__", builtinsVal)] state

/-- One separator of `re.split(r'[;\n]', code)`. -/
def isSegSep (c : Char) : Bool := c == ';' || c == '\n'

/-- `re.split(r'[;\n]', code)` on the character list: split at every
separator, keeping empty pieces. -/
def splitOnSeps : List Char → List (List Char)
  | [] => [[]]
  | c :: cs =>
    if isSegSep c then [] :: splitOnSeps cs
    else
      match splitOnSeps cs with
      | [] => [c]:: []
      | g :: gs => (c :: g) :: gs

/-- Python `str.strip()` (whitespace from both ends). -/
def trimChars (l : List Char) : List Char :=
  ((l.dropWhile isPySpace).reverse.dropWhile isPySpace).reverse

/-- Mirrors `[line.strip() for line in re.split(r'[;\n]', code) if
line.strip()]` of `_execute_code`. -/
def splitSegments (code : String) : List String :=
  (((splitOnSeps code.data).map trimChars).filter (fun l => !l.isEmpty)).map String.mk

/-- Does the whole result dict pass `is_json_serializable`?  The fixed keys
are strings and `success`/`output`/`error` hold a bool, a string and
None-or-a-string, so only the `result` value can make `json.dumps` fail. -/
def resultSerializable (r : ExecResult) : Bool :=
  match r.result with
  | none => true
  | some v => is_json_serializable v

/-- Mirrors the tail of `_execute_code`:
`if not is_json_serializable(result): result = make_json_serializable(result)`.
Normalizing the whole dict passes the fixed string keys and the
bool/str/None fields through unchanged and converts exactly the `result`
value. -/
def finalizeResult (r : ExecResult) : ExecResult :=
  if resultSerializable r then r
  else { r with result := r.result.map make_json_serializable }

/-- Mirrors `_execute_code(code)`, run against an explicit session state;
returns the result stored into `self.execution_result` and the session state
after the call.  The security path returns before the capture block and the
serializability check (early `return`); a compile failure and every
exception path leave the state untouched; only the successful path runs
`self.global_state.update(exec_globals)` and the last-segment
re-evaluation. -/
def execute_code (sem : PySem) (state : List (String × PyVal)) (code : String) :
    ExecResult × List (String × PyVal) :=
  match is_code_safe code with
  | false =>
    ({ emptyResult with error := some "SecurityError: Unsafe code detected" }, state)
  | true =>
    match sem.run code (seedGlobals state) with
    | .syntaxError msg tb =>
      (finalizeResult { emptyResult with
        error := some ("SyntaxError: " ++ msg ++ "\n" ++ tb) }, state)
    | .exn name msg tb outp =>
      (finalizeResult { emptyResult with
        error := some (name ++ ": " ++ msg ++ "\n" ++ tb), output := outp }, state)
    | .interrupted outp =>
      (finalizeResult { emptyResult with
        error := some "Execution timed out", output := outp }, state)
    | .ok ns outp =>
      let newState := dictUpdate state ns
      let resVal :=
        match (splitSegments code).getLast? with
        | none => none
        | some seg => sem.evalExpr seg ns
      (finalizeResult { success := true, output := outp, error := none, result := resVal },
       newState)

/-! ### The cancellation supervisor (`execute`) -/

/-- The engine instance: `self.global_state` and `self.execution_result`. -/
structure Executor where
  global_state : List (String × PyVal)
  execution_result : Option ExecResult

/-- Abstract wall-clock behaviour of one worker run: how many seconds the
snippet would naturally take, the text it has written to the capture buffer
at the moment a forced interrupt lands, and how many thread states
`PyThreadState_SetAsyncExc` reports as modified (1 on a normal delivery;
more than 1 makes `raise_exception` raise `RuntimeError`). -/
structure WorkerBehavior where
  duration : Nat
  interruptedOutput : String
  asyncExcRes : Nat

/-- Mirrors `if timeout is None or timeout <= 0: timeout = float('inf')`;
`none` stands for the unbounded deadline. -/
def effectiveTimeout : Option Int → Option Int
  | none => none
  | some t => if t ≤ 0 then none else some t

/-- Does the worker finish before `join` gives up: with an unbounded
deadline the caller waits for however long the worker takes. -/
def withinDeadline (wb : WorkerBehavior) : Option Int → Bool
  | none => true
  | some t => wb.duration ≤ t.toNat

/-- The hardcoded dict returned by the timeout branch of `execute`. -/
def timeoutResult (t : Int) : ExecResult :=
  { success := false, output := "",
    error := some ("Execution timed out after " ++ toString t ++ " seconds"),
    result := none }

/-- The fallback of `return self.execution_result or {...}`. -/
def noResultFallback : ExecResult :=
  { success := false, output := "",
    error := some "Execution failed with no result", result := none }

/-- The non-timeout path of `execute`: the worker runs `_execute_code` to
completion, stores its result, and the caller returns
`self.execution_result or fallback`. -/
def completeRun (sem : PySem) (ex : Executor) (code : String) :
    Except String ExecResult × Executor :=
  let p := execute_code sem ex.global_state code
  let ex2 : Executor := { global_state := p.2, execution_result := some p.1 }
  (.ok (ex2.execution_result.getD noResultFallback), ex2)

/-- Mirrors `execute(code, timeout)`.  `Except.error` is an exception
escaping `execute` (the `RuntimeError("Failed to stop thread")` that
`raise_exception` raises when `PyThreadState_SetAsyncExc` reports more than
one modified thread state); `Except.ok` is the returned dict.  In the
timeout branch the interrupted worker's `except KeyboardInterrupt` handler
records the captured output in `self.execution_result`, but the branch
returns a fresh hardcoded dict; the interrupt is modelled as landing inside
the `try` block, before the state update. -/
def execute (sem : PySem) (wb : WorkerBehavior) (ex : Executor) (code : String)
    (timeout : Option Int) : Except String ExecResult × Executor :=
  match effectiveTimeout timeout with
  | some t =>
    if wb.duration > t.toNat then
      if wb.asyncExcRes > 1 then
        (.error "Failed to stop thread", ex)
      else
        let workerResult := finalizeResult
          { success := false, output := wb.interruptedOutput,
            error := some "Execution timed out", result := none }
        (.ok (timeoutResult t), { ex with execution_result := some workerResult })
    else
      completeRun sem ex code
  | none =>
    completeRun sem ex code

/-- Mirrors `reset_state`: `self.global_state = {}`. -/
def reset_state (ex : Executor) : Executor := { ex with global_state := [] }

/-! ### Concrete scenario inputs -/

/-- A worker that finishes immediately, with a cleanly delivered interrupt. -/
def wb0 : WorkerBehavior :=
  { duration := 0, interruptedOutput := "", asyncExcRes := 1 }

/-- A worker that would run for 5 seconds and has written `hello` and a
newline to the capture buffer by the time the interrupt lands. -/
def wbSlow : WorkerBehavior :=
  { duration := 5, interruptedOutput := "hello\n", asyncExcRes := 1 }

/-- A worker that outlives the deadline and whose interrupt delivery reports
two modified thread states. -/
def wbSlowFail : WorkerBehavior :=
  { duration := 5, interruptedOutput := "", asyncExcRes := 2 }

/-- A fresh engine instance. -/
def exEmpty : Executor := { global_state := [], execution_result := none }

/-- Semantics of a snippet that completes without touching the namespace or
printing anything. -/
def sem0 : PySem where
  run := fun _ ns => .ok ns ""
  evalExpr := fun _ _ => none

/-- Semantics of the snippet `del x` run against a namespace that binds `x`:
`exec` completes, and the final namespace holds only the seeded
`__builtins__` — the `x` binding is gone.  The trailing segment `del x` does
not compile as an expression, so the re-evaluation yields nothing. -/
def semDel : PySem where
  run := fun _ _ => .ok [("__builtins__", builtinsVal)] ""
  evalExpr := fun _ _ => none

/-- Semantics of the two session snippets: `x = 5` binds `x` to `5` in the
namespace (an assignment does not compile as an expression, so the
re-evaluation of its own trailing segment yields nothing), and the
expression statement `x` leaves the namespace unchanged when `x` is bound
but raises `NameError` when it is not; `eval("x", ns)` returns the binding
of `x`. -/
def semSession : PySem where
  run := fun code ns =>
    if code = "x = 5" then .ok (dictSet ns "x" (.vInt 5)) ""
    else if code = "x" then
      match dictLookup ns "x" with
      | some _ => .ok ns ""
      | none => .exn "NameError" "name \x27x\x27 is not defined"
          "Traceback (most recent call last): ..." ""
    else .exn "RuntimeError" "snippet not modelled" "" ""
  evalExpr := fun seg ns => if seg = "x" then dictLookup ns "x" else none

/-- Semantics of `print("hello")` followed by the expression statement
`2+2`: `exec` writes `hello` plus a newline to the capture buffer and adds
no binding; `eval("2+2", ns)` returns `4`. -/
def semHello : PySem where
  run := fun code ns =>
    if code = "print(\x22hello\x22)\n2+2" then .ok ns "hello\n"
    else .exn "RuntimeError" "snippet not modelled" "" ""
  evalExpr := fun seg _ => if seg = "2+2" then some (.vInt 4) else none

/-- Semantics of a syntactically invalid snippet: `compile` raises
`SyntaxError` whatever the namespace. -/
def semSyn : PySem where
  run := fun _ _ => .syntaxError "invalid syntax" "Traceback (most recent call last): ..."
  evalExpr := fun _ _ => none

/-- Semantics of the snippet `raise KeyboardInterrupt`: `exec` raises
`KeyboardInterrupt` itself, with nothing printed, and the
`except KeyboardInterrupt` handler of `_execute_code` cannot distinguish it
from a supervisor-delivered interrupt. -/
def semKI : PySem where
  run := fun _ _ => .interrupted ""
  evalExpr := fun _ _ => none

/-! ### Association-list lemmas for the dict model -/

theorem dictLookup_dictReplace_self (d : List (String × PyVal)) (k : String) (v w : PyVal)
    (h : dictLookup d k = some w) :
    dictLookup (dictReplace k v d) k = some v := by
  induction d with
  | nil => simp [dictLookup] at h
  | cons p rest ih =>
    obtain ⟨k1, v1⟩ := p
    by_cases hk : k1 = k
    · simp [dictReplace, dictLookup, hk]
    · simp only [dictLookup, hk, ite_false] at h
      simp only [dictReplace, hk, ite_false, dictLookup]
      exact ih h

theorem dictLookup_dictReplace_ne (d : List (String × PyVal)) (k : String) (v : PyVal)
    (k' : String) (h : k ≠ k') :
    dictLookup (dictReplace k v d) k' = dictLookup d k' := by
  induction d with
  | nil => simp [dictReplace]
  | cons p rest ih =>
    obtain ⟨k1, v1⟩ := p
    by_cases hk : k1 = k
    · simp only [dictReplace, hk, ite_true, dictLookup, h, ite_false]
      exact ih
    · simp only [dictReplace, hk, ite_false, dictLookup]
      by_cases hk' : k1 = k'
      · simp [hk']
      · simp only [hk', ite_false]
        exact ih

theorem dictLookup_append_single_self (d : List (String × PyVal)) (k : String) (v : PyVal)
    (h : dictLookup d k = none) :
    dictLookup (d ++ [(k, v)]) k = some v := by
  induction d with
  | nil => simp [dictLookup]
  | cons p rest ih =>
    obtain ⟨k1, v1⟩ := p
    simp only [dictLookup] at h
    by_cases hk : k1 = k
    · simp [hk] at h
    · simp only [hk, ite_false] at h
      simp only [List.cons_append, dictLookup, hk, ite_false]
      exact ih h

theorem dictLookup_append_single_ne (d : List (String × PyVal)) (k : String) (v : PyVal)
    (k' : String) (h : k ≠ k') :
    dictLookup (d ++ [(k, v)]) k' = dictLookup d k' := by
  induction d with
  | nil => simp [dictLookup, h]
  | cons p rest ih =>
    obtain ⟨k1, v1⟩ := p
    simp only [List.cons_append, dictLookup]
    by_cases hk : k1 = k'
    · simp [hk]
    · simp only [hk, ite_false]
      exact ih

/-- Writing a binding makes it visible. -/
theorem dictLookup_dictSet_self (d : List (String × PyVal)) (k : String) (v : PyVal) :
    dictLookup (dictSet d k v) k = some v := by
  unfold dictSet
  cases h : dictLookup d k with
  | none => exact dictLookup_append_single_self d k v h
  | some w => exact dictLookup_dictReplace_self d k v w h

/-- Writing one binding leaves the others alone. -/
theorem dictLookup_dictSet_ne (d : List (String × PyVal)) (k : String) (v : PyVal)
    (k' : String) (h : k ≠ k') :
    dictLookup (dictSet d k v) k' = dictLookup d k' := by
  unfold dictSet
  cases hl : dictLookup d k with
  | none => exact dictLookup_append_single_ne d k v k' h
  | some w => exact dictLookup_dictReplace_ne d k v k' h

/-- A key never bound by the written dict keeps its old binding under
`d.update(u)`. -/
theorem dictLookup_dictUpdate_of_none (u : List (String × PyVal)) (d : List (String × PyVal))
    (k : String) (h : dictLookup u k = none) :
    dictLookup (dictUpdate d u) k = dictLookup d k := by
  induction u generalizing d with
  | nil => rfl
  | cons p rest ih =>
    obtain ⟨k1, v1⟩ := p
    simp only [dictLookup] at h
    by_cases hk : k1 = k
    · simp [hk] at h
    · simp only [hk, ite_false] at h
      show dictLookup (dictUpdate (dictSet d k1 v1) rest) k = dictLookup d k
      rw [ih (dictSet d k1 v1) h]
      exact dictLookup_dictSet_ne d k1 v1 k hk

theorem lastLookup_none_iff (u : List (String × PyVal)) (k : String) :
    lastLookup u k = none ↔ dictLookup u k = none := by
  induction u with
  | nil => simp [lastLookup, dictLookup]
  | cons p rest ih =>
    obtain ⟨k1, v1⟩ := p
    by_cases hk : k1 = k
    · simp only [lastLookup, dictLookup, hk, ite_true]
      cases h : lastLookup rest k <;> simp
    · simp only [lastLookup, dictLookup, hk, ite_false]
      cases h : lastLookup rest k with
      | none => simpa [h] using ih
      | some w => simpa [h] using ih

/-- The last binding of a key in the written dict wins under
`d.update(u)`. -/
theorem dictLookup_dictUpdate_of_last (u : List (String × PyVal)) (d : List (String × PyVal))
    (k : String) (v : PyVal) (h : lastLookup u k = some v) :
    dictLookup (dictUpdate d u) k = some v := by
  induction u generalizing d with
  | nil => simp [lastLookup] at h
  | cons p rest ih =>
    obtain ⟨k1, v1⟩ := p
    simp only [lastLookup] at h
    show dictLookup (dictUpdate (dictSet d k1 v1) rest) k = some v
    cases hrest : lastLookup rest k with
    | some w =>
      rw [hrest] at h
      cases h
      exact ih (dictSet d k1 v1) hrest
    | none =>
      rw [hrest] at h
      by_cases hk : k1 = k
      · simp only [hk, ite_true, Option.some.injEq] at h
        subst hk
        subst h
        rw [dictLookup_dictUpdate_of_none rest (dictSet d k1 v1) k1
          ((lastLookup_none_iff rest k1).mp hrest)]
        exact dictLookup_dictSet_self d k1 v1
      · simp [hk] at h

/-- `jsList` is elementwise serializability. -/
theorem jsList_eq_all (l : List PyVal) : jsList l = l.all is_json_serializable := by
  induction l with
  | nil => rfl
  | cons v vs ih => simp [jsList, List.all_cons, ih]

/-! ### Supervisor-level helper lemmas -/

/-- When the worker finishes inside the (possibly unbounded) deadline,
`execute` is exactly the non-timeout path: run `_execute_code`, store its
result, return it. -/
theorem execute_complete (sem : PySem) (wb : WorkerBehavior) (ex : Executor) (code : String)
    (timeout : Option Int) (h : withinDeadline wb (effectiveTimeout timeout) = true) :
    execute sem wb ex code timeout = completeRun sem ex code := by
  unfold execute
  cases heff : effectiveTimeout timeout with
  | none => rfl
  | some t =>
    rw [heff] at h
    unfold withinDeadline at h
    have hle : wb.duration ≤ t.toNat := by
      simpa using h
    have hnot : ¬ (wb.duration > t.toNat) := by omega
    simp only [hnot, ite_false]

/-- A source matching any blocklist rule is rejected by `_is_code_safe`. -/
theorem unsafe_of_match (code : String)
    (h : (∃ m ∈ blocked_imports, modStmtHit m code = true) ∨
         (∃ k ∈ blocked_keywords, strContains code k = true)) :
    is_code_safe code = false := by
  unfold is_code_safe
  rcases h with ⟨m, hm, hhit⟩ | ⟨k, hk, hsub⟩
  · cases hall : blocked_imports.all (fun m => !modStmtHit m code) with
    | false => simp [hall]
    | true =>
      have := List.all_eq_true.mp hall m hm
      rw [hhit] at this
      simp at this
  · cases hall : blocked_keywords.all (fun k => !strContains code k) with
    | false => simp [hall]
    | true =>
      have := List.all_eq_true.mp hall k hk
      rw [hsub] at this
      simp at this

/-- The non-timeout path spelled out: the returned dict is the worker's
`execution_result` (never the fallback, which only covers a worker that
died before storing anything). -/
theorem completeRun_eq (sem : PySem) (ex : Executor) (code : String) :
    completeRun sem ex code =
      (.ok (execute_code sem ex.global_state code).1,
       { global_state := (execute_code sem ex.global_state code).2,
         execution_result := some (execute_code sem ex.global_state code).1 }) := rfl

/-- `_execute_code` on source rejected by the screener: the early return with
the security error, untouched state, empty output. -/
theorem execute_code_unsafe (sem : PySem) (state : List (String × PyVal)) (code : String)
    (h : is_code_safe code = false) :
    execute_code sem state code =
      ({ success := false, output := "",
         error := some "SecurityError: Unsafe code detected", result := none }, state) := by
  unfold execute_code
  rw [h]
  rfl

/-- `_execute_code` on safe source whose compile raises `SyntaxError`. -/
theorem execute_code_syntax (sem : PySem) (state : List (String × PyVal)) (code : String)
    (msg tb : String)
    (hsafe : is_code_safe code = true)
    (hrun : sem.run code (seedGlobals state) = .syntaxError msg tb) :
    execute_code sem state code =
      ({ success := false, output := "",
         error := some ("SyntaxError: " ++ msg ++ "\n" ++ tb), result := none }, state) := by
  unfold execute_code
  rw [hsafe, hrun]
  rfl

/-- `_execute_code` on safe source that executes to completion: the state is
updated (a dict merge) and the last segment is re-evaluated. -/
theorem execute_code_ok (sem : PySem) (state : List (String × PyVal)) (code : String)
    (ns : List (String × PyVal)) (outp : String)
    (hsafe : is_code_safe code = true)
    (hrun : sem.run code (seedGlobals state) = .ok ns outp) :
    execute_code sem state code =
      (finalizeResult
        { success := true, output := outp, error := none,
          result := match (splitSegments code).getLast? with
                    | none => none
                    | some seg => sem.evalExpr seg ns },
       dictUpdate state ns) := by
  unfold execute_code
  rw [hsafe, hrun]

/-- The worker's `execution_result` when a deadline-expiry interrupt lands:
the `except KeyboardInterrupt` branch of `_execute_code`, holding the output
captured so far. -/
def interruptedWorkerResult (wb : WorkerBehavior) : ExecResult :=
  { success := false, output := wb.interruptedOutput,
    error := some "Execution timed out", result := none }

/-- The timeout branch spelled out: interrupt delivered cleanly, hardcoded
dict returned, worker's own result (with the pre-cancellation output) only
stored in `execution_result`. -/
theorem execute_timeout_branch (sem : PySem) (wb : WorkerBehavior) (ex : Executor)
    (code : String) (timeout : Option Int) (t : Int)
    (heff : effectiveTimeout timeout = some t)
    (hslow : wb.duration > t.toNat)
    (hres : ¬ wb.asyncExcRes > 1) :
    execute sem wb ex code timeout =
      (.ok (timeoutResult t),
       { ex with execution_result := some (interruptedWorkerResult wb) }) := by
  unfold execute
  rw [heff]
  simp only [hslow, ite_true, hres, ite_false]
  rfl

/-! ### The claims -/

/-- C1: for every source matching a blocklist rule (a forbidden-import
pattern or a forbidden-keyword substring), `execute` returns a result with
`success = false` and a SecurityRejected error, the session state is
unchanged, and the captured output is empty.  (The deadline hypothesis says
the worker finishes within the deadline, which the instant security path
always does.) -/
theorem C1_security_rejection (sem : PySem) (wb : WorkerBehavior) (ex : Executor)
    (code : String) (timeout : Option Int)
    (hmatch : (∃ m ∈ blocked_imports, modStmtHit m code = true) ∨
              (∃ k ∈ blocked_keywords, strContains code k = true))
    (hfast : withinDeadline wb (effectiveTimeout timeout) = true) :
    ∃ r : ExecResult,
      (execute sem wb ex code timeout).1 = .ok r ∧
      r.success = false ∧
      r.output = "" ∧
      errKind r = some .securityRejected ∧
      (execute sem wb ex code timeout).2.global_state = ex.global_state := by
  have hun : is_code_safe code = false := unsafe_of_match code hmatch
  have hcc := execute_code_unsafe sem ex.global_state code hun
  rw [execute_complete sem wb ex code timeout hfast, completeRun_eq, hcc]
  exact ⟨_, rfl, rfl, rfl, rfl, rfl⟩

/-- C1 witness: concrete rejected call on `import os`. -/
theorem C1_security_rejection_witness :
    ∃ r : ExecResult,
      (execute sem0 wb0 exEmpty "import os" (some 10)).1 = .ok r ∧
      r.success = false ∧
      r.output = "" ∧
      errKind r = some .securityRejected ∧
      (execute sem0 wb0 exEmpty "import os" (some 10)).2.global_state = exEmpty.global_state :=
  C1_security_rejection sem0 wb0 exEmpty "import os" (some 10)
    (Or.inl ⟨"os", by decide, by rfl⟩) (by rfl)

/-- C2 counterexample: the claim says the resulting namespace replaces the
SessionState wholesale, so a binding deleted by the snippet is absent
afterwards.  Running `del x` (modelled by `semDel`: the execution completes
and its final namespace holds only the seeded `__builtins__`, no `x`)
against the state `{x: 1}` completes successfully, yet the new session
state still binds `x` to `1` — the code merges with `dict.update` instead
of replacing. -/
theorem C2_counterexample :
    semDel.run "del x"
        (seedGlobals [("x", PyVal.vInt 1)]) = .ok [("__builtins__", builtinsVal)] "" ∧
    dictLookup [("__builtins__", builtinsVal)] "x" = none ∧
    (execute semDel wb0 { global_state := [("x", PyVal.vInt 1)], execution_result := none }
        "del x" (some 10)).1 =
      .ok { success := true, output := "", error := none, result := none } ∧
    dictLookup (execute semDel wb0
        { global_state := [("x", PyVal.vInt 1)], execution_result := none }
        "del x" (some 10)).2.global_state "x" = some (PyVal.vInt 1) :=
  ⟨rfl, rfl, rfl, rfl⟩

/-- C2 as amended: for every execution that completes successfully, the
resulting namespace is merged into the SessionState with Python dict-update
semantics — every binding of the resulting namespace is carried over with
later same-named bindings winning, but a pre-existing binding absent from
the resulting namespace (for example one the snippet deleted) is retained
rather than removed; the new state is `dictUpdate old ns`, not `ns`. -/
theorem C2_state_merge (sem : PySem) (wb : WorkerBehavior) (ex : Executor) (code : String)
    (timeout : Option Int) (ns : List (String × PyVal)) (outp : String)
    (hsafe : is_code_safe code = true)
    (hrun : sem.run code (seedGlobals ex.global_state) = .ok ns outp)
    (hfast : withinDeadline wb (effectiveTimeout timeout) = true) :
    (execute sem wb ex code timeout).2.global_state = dictUpdate ex.global_state ns ∧
    (∀ k v, lastLookup ns k = some v →
      dictLookup (execute sem wb ex code timeout).2.global_state k = some v) ∧
    (∀ k, dictLookup ns k = none →
      dictLookup (execute sem wb ex code timeout).2.global_state k =
        dictLookup ex.global_state k) := by
  have hcc := execute_code_ok sem ex.global_state code ns outp hsafe hrun
  rw [execute_complete sem wb ex code timeout hfast, completeRun_eq, hcc]
  refine ⟨rfl, ?_, ?_⟩
  · intro k v hv
    exact dictLookup_dictUpdate_of_last ns ex.global_state k v hv
  · intro k hk
    exact dictLookup_dictUpdate_of_none ns ex.global_state k hk

/-- C2 witness: the `del x` scenario evaluated through the amended claim. -/
theorem C2_state_merge_witness :
    (execute semDel wb0 { global_state := [("x", PyVal.vInt 1)], execution_result := none }
        "del x" (some 10)).2.global_state =
      dictUpdate [("x", PyVal.vInt 1)] [("__builtins__", builtinsVal)] ∧
    (∀ k v, lastLookup [("__builtins__", builtinsVal)] k = some v →
      dictLookup (execute semDel wb0
        { global_state := [("x", PyVal.vInt 1)], execution_result := none }
        "del x" (some 10)).2.global_state k = some v) ∧
    (∀ k, dictLookup [("__builtins__", builtinsVal)] k = none →
      dictLookup (execute semDel wb0
        { global_state := [("x", PyVal.vInt 1)], execution_result := none }
        "del x" (some 10)).2.global_state k =
        dictLookup [("x", PyVal.vInt 1)] k) :=
  C2_state_merge semDel wb0 { global_state := [("x", PyVal.vInt 1)], execution_result := none }
    "del x" (some 10) [("__builtins__", builtinsVal)] "" (by rfl) (by rfl) (by rfl)

/-- C3 counterexample: the claim says the result returned on deadline expiry
contains the output produced before cancellation.  A worker that had
printed `hello` when the interrupt landed (`wbSlow`) does record that
output in the instance's `execution_result`, but the timeout branch of
`execute` returns a fresh hardcoded dict whose output is empty — the
pre-cancellation output is not in the returned result. -/
theorem C3_counterexample :
    (execute sem0 wbSlow exEmpty "print(\x22hello\x22)\nwhile True: pass" (some 1)).1 =
      .ok { success := false, output := "",
            error := some "Execution timed out after 1 seconds", result := none } ∧
    (execute sem0 wbSlow exEmpty
        "print(\x22hello\x22)\nwhile True: pass" (some 1)).2.execution_result =
      some { success := false, output := "hello\n",
             error := some "Execution timed out", result := none } ∧
    strContains "" "hello" = false ∧
    strContains "hello\n" "hello" = true :=
  ⟨rfl, rfl, rfl, rfl⟩

/-- C3 as amended: for every call that ends by deadline expiry (with the
interrupt delivered cleanly), `execute` returns `success = false` with a
Timeout-kind error and an *empty* output field; the textual output the
snippet produced before cancellation is recorded only in the instance's
internal `execution_result`, not in the returned result. -/
theorem C3_timeout_returns_empty_output (sem : PySem) (wb : WorkerBehavior) (ex : Executor)
    (code : String) (timeout : Option Int) (t : Int)
    (heff : effectiveTimeout timeout = some t)
    (hslow : wb.duration > t.toNat)
    (hres : ¬ wb.asyncExcRes > 1) :
    (execute sem wb ex code timeout).1 = .ok (timeoutResult t) ∧
    (timeoutResult t).success = false ∧
    (timeoutResult t).output = "" ∧
    errKind (timeoutResult t) = some .timeoutExpired ∧
    (execute sem wb ex code timeout).2.execution_result =
      some { success := false, output := wb.interruptedOutput,
             error := some "Execution timed out", result := none } := by
  rw [execute_timeout_branch sem wb ex code timeout t heff hslow hres]
  exact ⟨rfl, rfl, rfl, rfl, rfl⟩

/-- C3 witness: a 5-second worker against a 1-second deadline. -/
theorem C3_timeout_returns_empty_output_witness :
    (execute sem0 wbSlow exEmpty "while True:\n    pass" (some 1)).1 =
      .ok (timeoutResult 1) ∧
    (timeoutResult 1).success = false ∧
    (timeoutResult 1).output = "" ∧
    errKind (timeoutResult 1) = some .timeoutExpired ∧
    (execute sem0 wbSlow exEmpty "while True:\n    pass" (some 1)).2.execution_result =
      some { success := false, output := wbSlow.interruptedOutput,
             error := some "Execution timed out", result := none } :=
  C3_timeout_returns_empty_output sem0 wbSlow exEmpty "while True:\n    pass" (some 1) 1
    (by rfl) (by decide) (by decide)

/-- C4 counterexample: the claim says no exception ever escapes `execute`,
even when interrupt delivery fails.  When the deadline expires and
`PyThreadState_SetAsyncExc` reports two modified thread states
(`wbSlowFail`), `raise_exception` raises `RuntimeError("Failed to stop
thread")`, which propagates out of `execute` — no result object is
returned. -/
theorem C4_counterexample :
    (execute sem0 wbSlowFail exEmpty "while True: pass" (some 1)).1 =
      .error "Failed to stop thread" :=
  rfl

/-- C4 as amended: `execute` returns a result object (with all four fields,
by construction of `ExecResult`) on every call *except* when deadline
expiry is followed by a failure of interrupt delivery
(`PyThreadState_SetAsyncExc` reporting more than one modified thread
state), in which case a `RuntimeError` escapes `execute` to the caller. -/
theorem C4_returns_result_unless_delivery_fails (sem : PySem) (wb : WorkerBehavior)
    (ex : Executor) (code : String) (timeout : Option Int)
    (h : withinDeadline wb (effectiveTimeout timeout) = true ∨ wb.asyncExcRes ≤ 1) :
    ∃ r : ExecResult, (execute sem wb ex code timeout).1 = .ok r := by
  cases hw : withinDeadline wb (effectiveTimeout timeout) with
  | true =>
    rw [execute_complete sem wb ex code timeout hw, completeRun_eq]
    exact ⟨_, rfl⟩
  | false =>
    have hres : ¬ wb.asyncExcRes > 1 := by
      rcases h with h | h
      · rw [hw] at h
        cases h
      · omega
    cases heff : effectiveTimeout timeout with
    | none =>
      rw [heff] at hw
      cases hw
    | some t =>
      rw [heff] at hw
      unfold withinDeadline at hw
      have hgt : wb.duration > t.toNat := by
        have := of_decide_eq_false hw
        omega
      rw [execute_timeout_branch sem wb ex code timeout t heff hgt hres]
      exact ⟨_, rfl⟩

/-- C4 witness: a timed-out call with a cleanly delivered interrupt still
returns a result object. -/
theorem C4_returns_result_unless_delivery_fails_witness :
    ∃ r : ExecResult, (execute sem0 wbSlow exEmpty "while True: print(1)" (some 2)).1 = .ok r :=
  C4_returns_result_unless_delivery_fails sem0 wbSlow exEmpty "while True: print(1)" (some 2)
    (Or.inr (by decide))

/-- C5 counterexample: the claim quantifies over *every* syntactically
invalid source, but the screener runs first.  `eval((` is syntactically
invalid (`semSyn` models its compile raising `SyntaxError`), yet it also
contains the blocked keyword `eval`, so `execute` returns the
SecurityRejected error, not a SyntaxInvalid one. -/
theorem C5_counterexample :
    semSyn.run "eval((" (seedGlobals []) =
      .syntaxError "invalid syntax" "Traceback (most recent call last): ..." ∧
    (execute semSyn wb0 exEmpty "eval((" (some 10)).1 =
      .ok { success := false, output := "",
            error := some "SecurityError: Unsafe code detected", result := none } ∧
    errKind ({ success := false, output := "",
               error := some "SecurityError: Unsafe code detected",
               result := none } : ExecResult) = some .securityRejected ∧
    ErrKind.securityRejected ≠ ErrKind.syntaxInvalid :=
  ⟨rfl, rfl, rfl, by decide⟩

/-- C5 as amended: for every syntactically invalid source *that passes the
security screen*, `execute` returns `success = false` with a SyntaxInvalid
(compile-failure) error, and the session state is exactly the same after
the call as before it. -/
theorem C5_syntax_error (sem : PySem) (wb : WorkerBehavior) (ex : Executor)
    (code : String) (timeout : Option Int) (msg tb : String)
    (hsafe : is_code_safe code = true)
    (hrun : sem.run code (seedGlobals ex.global_state) = .syntaxError msg tb)
    (hfast : withinDeadline wb (effectiveTimeout timeout) = true) :
    ∃ r : ExecResult,
      (execute sem wb ex code timeout).1 = .ok r ∧
      r.success = false ∧
      errKind r = some .syntaxInvalid ∧
      (execute sem wb ex code timeout).2.global_state = ex.global_state := by
  have hcc := execute_code_syntax sem ex.global_state code msg tb hsafe hrun
  rw [execute_complete sem wb ex code timeout hfast, completeRun_eq, hcc]
  exact ⟨_, rfl, rfl, rfl, rfl⟩

/-- C5 witness: the safe but invalid source `1 +`. -/
theorem C5_syntax_error_witness :
    ∃ r : ExecResult,
      (execute semSyn wb0 exEmpty "1 +" (some 10)).1 = .ok r ∧
      r.success = false ∧
      errKind r = some .syntaxInvalid ∧
      (execute semSyn wb0 exEmpty "1 +" (some 10)).2.global_state = exEmpty.global_state :=
  C5_syntax_error semSyn wb0 exEmpty "1 +" (some 10) "invalid syntax"
    "Traceback (most recent call last): ..." (by rfl) (by rfl) (by rfl)

/-- C6: session persistence — on one engine instance, a successful
`execute` of `x = 5` followed by an `execute` of the expression `x` returns
a result whose value field is `5`. -/
theorem C6_session_persistence :
    (execute semSession wb0 exEmpty "x = 5" (some 10)).1 =
      .ok { success := true, output := "", error := none, result := none } ∧
    (execute semSession wb0
        (execute semSession wb0 exEmpty "x = 5" (some 10)).2 "x" (some 10)).1 =
      .ok { success := true, output := "", error := none, result := some (PyVal.vInt 5) } :=
  ⟨rfl, rfl⟩

/-- C7: source that writes `hello` to standard output and whose last
statement-like segment is `2+2` yields `success = true`, an output
containing `hello`, and result value `4`; the last segment picked by the
split is indeed `2+2`, re-evaluated against the post-execution
namespace. -/
theorem C7_output_and_result :
    (splitSegments "print(\x22hello\x22)\n2+2").getLast? = some "2+2" ∧
    ∃ r : ExecResult,
      (execute semHello wb0 exEmpty "print(\x22hello\x22)\n2+2" (some 10)).1 = .ok r ∧
      r.success = true ∧
      strContains r.output "hello" = true ∧
      r.result = some (PyVal.vInt 4) :=
  ⟨rfl, ⟨{ success := true, output := "hello\n", error := none,
           result := some (PyVal.vInt 4) }, rfl, rfl, rfl, rfl⟩⟩

/-- C8: after `reset()`, executing source that references a name bound by an
earlier successful execution returns `success = false` with a
RuntimeFailure-kind error (an undefined-reference `NameError`), because
`reset_state` clears every binding of the session state. -/
theorem C8_reset_clears_state :
    dictLookup (execute semSession wb0 exEmpty "x = 5" (some 10)).2.global_state "x" =
      some (PyVal.vInt 5) ∧
    (reset_state (execute semSession wb0 exEmpty "x = 5" (some 10)).2).global_state = [] ∧
    ∃ r : ExecResult,
      (execute semSession wb0
        (reset_state (execute semSession wb0 exEmpty "x = 5" (some 10)).2)
        "x" (some 10)).1 = .ok r ∧
      r.success = false ∧
      errKind r = some .runtimeFailure :=
  ⟨rfl, rfl,
   ⟨{ success := false, output := "",
      error := some "NameError: name \x27x\x27 is not defined\nTraceback (most recent call last): ...",
      result := none }, rfl, rfl, rfl⟩⟩

/-- C9: normalizing a set value containing exactly the elements 1, 2 and 3
yields a JSON array containing exactly those three elements, in whatever
order the set iterates. -/
theorem C9_set_normalization (l : List PyVal)
    (h : l.Perm [PyVal.vInt 1, PyVal.vInt 2, PyVal.vInt 3]) :
    ∃ l2 : List PyVal,
      make_json_serializable (PyVal.vSet l) = PyVal.vList l2 ∧
      l2.Perm [PyVal.vInt 1, PyVal.vInt 2, PyVal.vInt 3] ∧
      is_json_serializable (PyVal.vList l2) = true := by
  refine ⟨l, rfl, h, ?_⟩
  show jsList l = true
  rw [jsList_eq_all]
  refine List.all_eq_true.mpr ?_
  intro x hx
  have hm : x ∈ [PyVal.vInt 1, PyVal.vInt 2, PyVal.vInt 3] := h.mem_iff.mp hx
  simp only [List.mem_cons, List.not_mem_nil, or_false] at hm
  rcases hm with rfl | rfl | rfl <;> rfl

/-- C9 witness: the set `{1, 2, 3}` itself. -/
theorem C9_set_normalization_witness :
    ∃ l2 : List PyVal,
      make_json_serializable (PyVal.vSet [PyVal.vInt 1, PyVal.vInt 2, PyVal.vInt 3]) =
        PyVal.vList l2 ∧
      l2.Perm [PyVal.vInt 1, PyVal.vInt 2, PyVal.vInt 3] ∧
      is_json_serializable (PyVal.vList l2) = true :=
  C9_set_normalization [PyVal.vInt 1, PyVal.vInt 2, PyVal.vInt 3] (List.Perm.refl _)

/-- C10 counterexample: the claim says a call with an absent timeout can
never produce a Timeout-kind error.  Source that itself raises
`KeyboardInterrupt` (modelled by `semKI`) lands in the same
`except KeyboardInterrupt` handler as a supervisor interrupt, so even with
`timeout = None` the returned result carries the Timeout-kind
`Execution timed out` error. -/
theorem C10_counterexample :
    effectiveTimeout none = none ∧
    (execute semKI wb0 exEmpty "raise KeyboardInterrupt" none).1 =
      .ok { success := false, output := "",
            error := some "Execution timed out", result := none } ∧
    errKind ({ success := false, output := "",
               error := some "Execution timed out",
               result := none } : ExecResult) = some .timeoutExpired :=
  ⟨rfl, rfl, rfl⟩

/-- C10 as amended: when the timeout argument is absent or not positive the
deadline is treated as unbounded — the caller waits for the worker with no
deadline and always returns the worker's own stored result (the
supervisor's timeout branch, with its hardcoded `Execution timed out after
… seconds` dict, never runs, and no interrupt is delivered); a Timeout-kind
error can still appear, but only when the snippet itself raises the
interrupt exception. -/
theorem C10_unbounded_waits_for_worker (sem : PySem) (wb : WorkerBehavior) (ex : Executor)
    (code : String) (timeout : Option Int)
    (h : effectiveTimeout timeout = none) :
    execute sem wb ex code timeout =
      (.ok (execute_code sem ex.global_state code).1,
       { global_state := (execute_code sem ex.global_state code).2,
         execution_result := some (execute_code sem ex.global_state code).1 }) := by
  have hw : withinDeadline wb (effectiveTimeout timeout) = true := by
    rw [h]
    rfl
  rw [execute_complete sem wb ex code timeout hw, completeRun_eq]

/-- C10 witness: a negative timeout behaves as unbounded. -/
theorem C10_unbounded_waits_for_worker_witness :
    execute sem0 wbSlow exEmpty "pass" (some (-3)) =
      (.ok (execute_code sem0 [] "pass").1,
       { global_state := (execute_code sem0 [] "pass").2,
         execution_result := some (execute_code sem0 [] "pass").1 }) :=
  C10_unbounded_waits_for_worker sem0 wbSlow exEmpty "pass" (some (-3)) (by rfl)

end PyExec
